import Mathlib

/-!
A shallow embedding of the selection registry of this repository
(`libs/ardour/selection.cc`, `libs/ardour/ardour/selection.h`) and its GUI
adapter (`gtk2_ardour/route_processor_selection.cc`).

Weak references (`boost::weak_ptr`) are modelled as a three-state value:
never set (`null`), expired (`dead`: the referenced object was destroyed but
the control block identity survives, so `owner_before` still distinguishes
it from an empty weak pointer), or alive (`live`), with objects identified
by natural numbers standing for their addresses.  `boost::shared_ptr`
arguments are modelled as `Option Nat` (`none` is the null pointer).  The
`std::set` of selection entries is modelled as a list together with the
equivalence induced by the comparator `SelectedStripable::operator<`; the
atomic order counter `selection_order` is explicit state.  Each mutating
operation returns the new state paired with the `send` flag, i.e. whether
`send_selection_change` fires after the lock is released.
-/

/-- A `boost::weak_ptr`: never set, expired, or pointing at a live object. -/
inductive WPtr where
  | null : WPtr
  | dead : Nat → WPtr
  | live : Nat → WPtr
deriving DecidableEq

/-- `boost::weak_ptr::lock`: an expired or never-set weak pointer yields the
null shared pointer. -/
def WPtr.lock : WPtr → Option Nat
  | .live i => some i
  | _ => none

/-- Constructing a weak pointer from a shared pointer, as the
`SelectedStripable` constructor does: the null shared pointer gives an empty
weak pointer, a live one gives a live weak pointer sharing its owner. -/
def WPtr.ofShared : Option Nat → WPtr
  | none => .null
  | some i => .live i

/-- `weak_ptr_is_not_null` (selection.cc lines 154-157): true iff the weak
pointer has an owner, i.e. it is expired or live; false only for a
never-set weak pointer.  (`owner_before` against a default-constructed
weak pointer detects the presence of a control block, which an expired
weak pointer still has.) -/
def weak_ptr_is_not_null : WPtr → Bool
  | .null => false
  | _ => true

/-- Ordering on locked shared pointers (raw pointer comparison, with the
null pointer least). -/
def optLt : Option Nat → Option Nat → Bool
  | none, none => false
  | none, some _ => true
  | some _, none => false
  | some a, some b => a < b

/-- `CoreSelection::SelectedStripable` (selection.h lines 57-75). -/
structure SelectedStripable where
  stripable : WPtr
  controllable : WPtr
  order : Nat
deriving DecidableEq

/-- `SelectedStripable::operator<` (selection.h lines 63-74): compare the
locked stripables; on a tie compare the locked controllables.  `order` is
not part of the key. -/
def ssLt (a b : SelectedStripable) : Bool :=
  if a.stripable.lock = b.stripable.lock then
    optLt a.controllable.lock b.controllable.lock
  else
    optLt a.stripable.lock b.stripable.lock

/-- The `std::set` equivalence induced by `operator<`: neither element
precedes the other. -/
def ssEquiv (a b : SelectedStripable) : Bool :=
  !(ssLt a b) && !(ssLt b a)

/-- The `SelectedStripable` built from two shared pointers and an order
value (selection.cc lines 206-211). -/
def mkSelectedStripable (s c : Option Nat) (o : Nat) : SelectedStripable :=
  ⟨WPtr.ofShared s, WPtr.ofShared c, o⟩

/-- `std::set::find`-style membership under the comparator's equivalence. -/
def containsEquiv (l : List SelectedStripable) (ss : SelectedStripable) : Bool :=
  l.any (fun e => ssEquiv e ss)

/-- The `CoreSelection` state: the entry set `_stripables` (modelled as a
list) and the atomic counter `selection_order`. -/
structure CoreSelection where
  stripables : List SelectedStripable
  selection_order : Nat
deriving DecidableEq

/-- `CoreSelection::add` (selection.cc lines 59-80).  The constructor call
`g_atomic_int_add (&selection_order, 1)` grabs the current counter value
for the new entry's order and bumps the counter, whether or not the insert
succeeds; the entry is inserted only if no equivalent entry exists, and
the change notification is sent only on a successful insert. -/
def CoreSelection.add (cs : CoreSelection) (s c : Option Nat) :
    CoreSelection × Bool :=
  let ss := mkSelectedStripable s c cs.selection_order
  if containsEquiv cs.stripables ss then
    ({ cs with selection_order := cs.selection_order + 1 }, false)
  else
    ({ stripables := ss :: cs.stripables,
       selection_order := cs.selection_order + 1 }, true)

/-- `CoreSelection::remove` (selection.cc lines 82-103): erase the entry
found equivalent to `(s, c, 0)` if any; notify only when an entry was
erased.  The order counter is untouched. -/
def CoreSelection.remove (cs : CoreSelection) (s c : Option Nat) :
    CoreSelection × Bool :=
  let ss := mkSelectedStripable s c 0
  if containsEquiv cs.stripables ss then
    ({ cs with
       stripables := cs.stripables.eraseP (fun e => ssEquiv e ss) }, true)
  else
    (cs, false)

/-- `CoreSelection::set` (selection.cc lines 105-124): the constructor bumps
the counter first; if the set has exactly one element and it is equivalent
to the new entry, return early with no mutation and no notification;
otherwise clear everything, insert the new entry, and notify. -/
def CoreSelection.set (cs : CoreSelection) (s c : Option Nat) :
    CoreSelection × Bool :=
  let ss := mkSelectedStripable s c cs.selection_order
  if cs.stripables.length == 1 && containsEquiv cs.stripables ss then
    ({ cs with selection_order := cs.selection_order + 1 }, false)
  else
    ({ stripables := [ss], selection_order := cs.selection_order + 1 }, true)

/-- `CoreSelection::clear_stripables` (selection.cc lines 126-146): empty
the set, notifying only if it was non-empty. -/
def CoreSelection.clear_stripables (cs : CoreSelection) :
    CoreSelection × Bool :=
  if cs.stripables.isEmpty then
    (cs, false)
  else
    ({ cs with stripables := [] }, true)

/-- `CoreSelection::selected (shared_ptr<const Stripable>)` (selection.cc
lines 159-184): false for a null argument; otherwise scan the entries,
skipping every entry whose controllable weak pointer is not null (expired
or live), and report whether some remaining entry's locked stripable
equals the argument. -/
def CoreSelection.selectedS (cs : CoreSelection) (s : Option Nat) : Bool :=
  if s.isNone then
    false
  else
    cs.stripables.any (fun x =>
      !(weak_ptr_is_not_null x.controllable) && s == x.stripable.lock)

/-- `CoreSelection::selected (shared_ptr<const Controllable>)`
(selection.cc lines 186-204): false for a null argument; otherwise report
whether some entry's locked controllable equals the argument. -/
def CoreSelection.selectedC (cs : CoreSelection) (c : Option Nat) : Bool :=
  if c.isNone then
    false
  else
    cs.stripables.any (fun x => c == x.controllable.lock)

/-- `CoreSelection::toggle` (selection.cc lines 47-57): remove when the
controllable is non-null and selected, or when the stripable is selected;
otherwise add. -/
def CoreSelection.toggle (cs : CoreSelection) (s c : Option Nat) :
    CoreSelection × Bool :=
  if (c.isSome && cs.selectedC c) || cs.selectedS s then
    cs.remove s c
  else
    cs.add s c

/-- `CoreSelection::StripableControllable`: a snapshot element carrying the
locked (shared) pointers and the entry's order value. -/
structure StripableControllable where
  stripable : Option Nat
  controllable : Option Nat
  order : Nat
deriving DecidableEq

/-- The snapshot element built from a live-enough entry by
`CoreSelection::get_stripables`. -/
def liveView (x : SelectedStripable) : StripableControllable :=
  ⟨x.stripable.lock, x.controllable.lock, x.order⟩

/-- An entry survives the `get_stripables` scan iff at least one of its two
locked pointers is non-null. -/
def entryLive (x : SelectedStripable) : Bool :=
  x.stripable.lock.isSome || x.controllable.lock.isSome

/-- One step of sorting by `StripableControllerSort` (selection.cc lines
213-217), which compares snapshot elements by `order`. -/
def insertByOrder (p : StripableControllable) :
    List StripableControllable → List StripableControllable
  | [] => [p]
  | q :: t => if p.order < q.order then p :: q :: t else q :: insertByOrder p t

/-- The `sort` call at the end of `get_stripables`, keyed by `order`. -/
def sortByOrder : List StripableControllable → List StripableControllable
  | [] => []
  | p :: t => insertByOrder p (sortByOrder t)

/-- `CoreSelection::get_stripables` (selection.cc lines 219-234): keep each
entry for which locking yields at least one non-null pointer, then sort
the snapshot ascending by `order`. -/
def CoreSelection.get_stripables (cs : CoreSelection) :
    List StripableControllable :=
  sortByOrder ((cs.stripables.filter entryLive).map liveView)

/-- An `AxisView*`: the GUI view object, with its identity and the
stripable its `stripable()` accessor returns. -/
structure AxisView where
  id : Nat
  strip : Option Nat
deriving DecidableEq

/-- The `RouteProcessorSelection` adapter state: the locally tracked view
set `axes`, the processor selection inherited from `ProcessorSelection`
(opaque, modelled as a list of identifiers), and the session's
`CoreSelection`. -/
structure RouteProcessorSelection where
  axes : List AxisView
  processors : List Nat
  core : CoreSelection
deriving DecidableEq

/-- `RouteProcessorSelection::add` (route_processor_selection.cc lines
90-103): if the view is not yet tracked, track it and forward
`CoreSelection::add (view.stripable(), null)`.  (The `CatchDeletion`
subscription is signal plumbing with no effect on this state.) -/
def RouteProcessorSelection.add (rps : RouteProcessorSelection)
    (r : AxisView) : RouteProcessorSelection :=
  if r ∈ rps.axes then
    rps
  else
    { rps with
      axes := r :: rps.axes
      core := (rps.core.add r.strip none).1 }

/-- `RouteProcessorSelection::remove` (route_processor_selection.cc lines
105-110): forward `CoreSelection::remove (view.stripable(), null)`
unconditionally; the local `axes` set is not touched. -/
def RouteProcessorSelection.remove (rps : RouteProcessorSelection)
    (r : AxisView) : RouteProcessorSelection :=
  { rps with core := (rps.core.remove r.strip none).1 }

/-- `RouteProcessorSelection::set` (route_processor_selection.cc lines
112-116): forward `CoreSelection::set (view.stripable(), null)`. -/
def RouteProcessorSelection.set (rps : RouteProcessorSelection)
    (r : AxisView) : RouteProcessorSelection :=
  { rps with core := (rps.core.set r.strip none).1 }

/-- Modelled from the spec: `ProcessorSelection::clear_processors` lives in
`gtk2_ardour/processor_selection.cc`, which is not among the source files;
per the spec it clears the tracked processor selection.  As a base-class
member it cannot access the derived class's `axes` field. -/
def RouteProcessorSelection.clear_processors
    (rps : RouteProcessorSelection) : RouteProcessorSelection :=
  { rps with processors := [] }

/-- `RouteProcessorSelection::clear_routes` (route_processor_selection.cc
lines 70-75): forward `CoreSelection::clear_stripables`. -/
def RouteProcessorSelection.clear_routes
    (rps : RouteProcessorSelection) : RouteProcessorSelection :=
  { rps with core := rps.core.clear_stripables.1 }

/-- `RouteProcessorSelection::clear` (route_processor_selection.cc lines
63-68): `clear_processors` then `clear_routes`. -/
def RouteProcessorSelection.clear
    (rps : RouteProcessorSelection) : RouteProcessorSelection :=
  rps.clear_processors.clear_routes

/-- `RouteProcessorSelection::selected` (route_processor_selection.cc lines
118-122): membership of the view in the local `axes` set, with no query to
`CoreSelection`. -/
def RouteProcessorSelection.selected (rps : RouteProcessorSelection)
    (r : AxisView) : Bool :=
  rps.axes.contains r

/-- `RouteProcessorSelection::empty` (route_processor_selection.cc lines
124-128). -/
def RouteProcessorSelection.isEmptySel (rps : RouteProcessorSelection) :
    Bool :=
  rps.processors.isEmpty && rps.axes.isEmpty

/-- The claim C1 reading of `selected(stripable)`, following the spec's
words: true iff some entry's stripable matches by identity and that entry
has no *live* controllable component (so an entry whose controllable weak
reference is expired would still count as a pure stripable-only entry). -/
def specSelectedStripable (cs : CoreSelection) (s : Option Nat) : Bool :=
  s.isSome && cs.stripables.any (fun x =>
    x.controllable.lock.isNone && s == x.stripable.lock)

/-- One mutating operation of the `CoreSelection` API. -/
inductive SelOp where
  | opToggle (s c : Option Nat)
  | opAdd (s c : Option Nat)
  | opRemove (s c : Option Nat)
  | opSet (s c : Option Nat)
  | opClear
deriving DecidableEq

/-- Apply one mutating operation to a `CoreSelection` state. -/
def applySelOp (op : SelOp) (cs : CoreSelection) : CoreSelection :=
  match op with
  | .opToggle s c => (cs.toggle s c).1
  | .opAdd s c => (cs.add s c).1
  | .opRemove s c => (cs.remove s c).1
  | .opSet s c => (cs.set s c).1
  | .opClear => cs.clear_stripables.1

/-- Replay a sequence of mutating operations. -/
def runSelOps (ops : List SelOp) (cs : CoreSelection) : CoreSelection :=
  ops.foldl (fun st op => applySelOp op st) cs

/-- The uniqueness invariant: no two distinct entries are equivalent under
the comparator (at most one entry per (stripable-identity,
controllable-identity) pair, with expired or absent weak references
locking to the null value). -/
def uniquePairs (cs : CoreSelection) : Prop :=
  cs.stripables.Pairwise (fun a b => ¬ (ssEquiv a b = true))

theorem optLt_both_false {x y : Option Nat} :
    optLt x y = false ∧ optLt y x = false ↔ x = y := by
  cases x <;> cases y
  · simp [optLt]
  · simp [optLt]
  · simp [optLt]
  · simp only [optLt, decide_eq_false_iff_not, Option.some_inj]
    omega

theorem ssEquiv_iff {a b : SelectedStripable} :
    ssEquiv a b = true ↔
      a.stripable.lock = b.stripable.lock ∧
        a.controllable.lock = b.controllable.lock := by
  by_cases h : a.stripable.lock = b.stripable.lock
  · rw [ssEquiv, ssLt, ssLt, if_pos h, if_pos h.symm]
    simp only [Bool.and_eq_true, Bool.not_eq_true']
    rw [optLt_both_false]
    exact ⟨fun hc => ⟨h, hc⟩, fun hc => hc.2⟩
  · rw [ssEquiv, ssLt, ssLt, if_neg h, if_neg (fun hh => h hh.symm)]
    simp only [Bool.and_eq_true, Bool.not_eq_true']
    rw [optLt_both_false]
    exact ⟨fun hc => absurd hc h, fun hc => absurd hc.1 h⟩

theorem ssEquiv_symm (a b : SelectedStripable) :
    ssEquiv a b = ssEquiv b a := by
  rw [Bool.eq_iff_iff, ssEquiv_iff, ssEquiv_iff]
  exact ⟨fun h => ⟨h.1.symm, h.2.symm⟩, fun h => ⟨h.1.symm, h.2.symm⟩⟩

theorem ssEquiv_trans {a b c : SelectedStripable}
    (h1 : ssEquiv a b = true) (h2 : ssEquiv b c = true) :
    ssEquiv a c = true := by
  rw [ssEquiv_iff] at h1 h2 ⊢
  exact ⟨h1.1.trans h2.1, h1.2.trans h2.2⟩

theorem lock_ofShared (s : Option Nat) : (WPtr.ofShared s).lock = s := by
  cases s <;> rfl

theorem mk_stripable_lock (s c : Option Nat) (o : Nat) :
    (mkSelectedStripable s c o).stripable.lock = s := lock_ofShared s

theorem mk_controllable_lock (s c : Option Nat) (o : Nat) :
    (mkSelectedStripable s c o).controllable.lock = c := lock_ofShared c

theorem ssEquiv_mk_order (e : SelectedStripable) (s c : Option Nat)
    (o o' : Nat) :
    ssEquiv e (mkSelectedStripable s c o) =
      ssEquiv e (mkSelectedStripable s c o') := by
  rw [Bool.eq_iff_iff, ssEquiv_iff, ssEquiv_iff]
  simp [mk_stripable_lock, mk_controllable_lock]

theorem containsEquiv_true_iff {l : List SelectedStripable}
    {ss : SelectedStripable} :
    containsEquiv l ss = true ↔ ∃ e ∈ l, ssEquiv e ss = true := by
  simp [containsEquiv]

theorem containsEquiv_false_iff {l : List SelectedStripable}
    {ss : SelectedStripable} :
    containsEquiv l ss = false ↔ ∀ e ∈ l, ssEquiv e ss = false := by
  simp [containsEquiv]

theorem uniquePairs_add (cs : CoreSelection) (s c : Option Nat)
    (h : uniquePairs cs) : uniquePairs (cs.add s c).1 := by
  unfold CoreSelection.add
  by_cases hc :
      containsEquiv cs.stripables
        (mkSelectedStripable s c cs.selection_order) = true
  · simp only [hc, if_true]
    exact h
  · rw [if_neg hc]
    refine List.Pairwise.cons ?_ h
    intro b hb heq
    rw [Bool.not_eq_true] at hc
    have hb' := containsEquiv_false_iff.mp hc b hb
    rw [ssEquiv_symm] at heq
    rw [heq] at hb'
    exact Bool.noConfusion hb'

theorem uniquePairs_remove (cs : CoreSelection) (s c : Option Nat)
    (h : uniquePairs cs) : uniquePairs (cs.remove s c).1 := by
  unfold CoreSelection.remove
  by_cases hc :
      containsEquiv cs.stripables (mkSelectedStripable s c 0) = true
  · rw [if_pos hc]
    exact List.Pairwise.sublist (List.eraseP_sublist _) h
  · rw [if_neg hc]
    exact h

theorem uniquePairs_set (cs : CoreSelection) (s c : Option Nat)
    (h : uniquePairs cs) : uniquePairs (cs.set s c).1 := by
  unfold CoreSelection.set
  by_cases hc :
      (cs.stripables.length == 1 &&
        containsEquiv cs.stripables
          (mkSelectedStripable s c cs.selection_order)) = true
  · rw [if_pos hc]
    exact h
  · rw [if_neg hc]
    exact List.pairwise_singleton _ _

theorem uniquePairs_clear (cs : CoreSelection)
    (h : uniquePairs cs) : uniquePairs cs.clear_stripables.1 := by
  unfold CoreSelection.clear_stripables
  by_cases hc : cs.stripables.isEmpty = true
  · rw [if_pos hc]
    exact h
  · rw [if_neg hc]
    exact List.Pairwise.nil

theorem uniquePairs_toggle (cs : CoreSelection) (s c : Option Nat)
    (h : uniquePairs cs) : uniquePairs (cs.toggle s c).1 := by
  unfold CoreSelection.toggle
  by_cases hc : ((c.isSome && cs.selectedC c) || cs.selectedS s) = true
  · rw [if_pos hc]
    exact uniquePairs_remove cs s c h
  · rw [if_neg hc]
    exact uniquePairs_add cs s c h

theorem uniquePairs_applySelOp (op : SelOp) (cs : CoreSelection)
    (h : uniquePairs cs) : uniquePairs (applySelOp op cs) := by
  cases op with
  | opToggle s c => exact uniquePairs_toggle cs s c h
  | opAdd s c => exact uniquePairs_add cs s c h
  | opRemove s c => exact uniquePairs_remove cs s c h
  | opSet s c => exact uniquePairs_set cs s c h
  | opClear => exact uniquePairs_clear cs h

theorem perm_insertByOrder (p : StripableControllable)
    (l : List StripableControllable) :
    List.Perm (insertByOrder p l) (p :: l) := by
  induction l with
  | nil => exact List.Perm.refl _
  | cons q t ih =>
    rw [insertByOrder]
    by_cases h : p.order < q.order
    · rw [if_pos h]
    · rw [if_neg h]
      exact (ih.cons q).trans (List.Perm.swap p q t)

theorem perm_sortByOrder (l : List StripableControllable) :
    List.Perm (sortByOrder l) l := by
  induction l with
  | nil => exact List.Perm.refl _
  | cons p t ih =>
    rw [sortByOrder]
    exact (perm_insertByOrder p (sortByOrder t)).trans (ih.cons p)

theorem pairwise_le_insertByOrder (p : StripableControllable)
    (l : List StripableControllable)
    (h : l.Pairwise (fun a b => a.order ≤ b.order)) :
    (insertByOrder p l).Pairwise (fun a b => a.order ≤ b.order) := by
  induction l with
  | nil => exact List.pairwise_singleton _ _
  | cons q t ih =>
    rw [insertByOrder]
    rcases List.pairwise_cons.mp h with ⟨hq, ht⟩
    by_cases hlt : p.order < q.order
    · rw [if_pos hlt]
      refine List.Pairwise.cons ?_ h
      intro b hb
      rcases List.mem_cons.mp hb with rfl | hb'
      · exact Nat.le_of_lt hlt
      · exact Nat.le_trans (Nat.le_of_lt hlt) (hq b hb')
    · rw [if_neg hlt]
      refine List.Pairwise.cons ?_ (ih ht)
      intro b hb
      rcases List.mem_cons.mp ((perm_insertByOrder p t).mem_iff.mp hb) with
        rfl | hb'
      · exact Nat.le_of_not_lt hlt
      · exact hq b hb'

theorem pairwise_le_sortByOrder (l : List StripableControllable) :
    (sortByOrder l).Pairwise (fun a b => a.order ≤ b.order) := by
  induction l with
  | nil => exact List.Pairwise.nil
  | cons p t ih =>
    rw [sortByOrder]
    exact pairwise_le_insertByOrder p (sortByOrder t) ih

theorem lock_eq_none_of_not_not_null {w : WPtr}
    (h : weak_ptr_is_not_null w = false) : w.lock = none := by
  cases w with
  | null => rfl
  | dead i => exact Bool.noConfusion h
  | live i => exact Bool.noConfusion h

/-- An entry that witnesses `selected (stripable)` for `some k` is
equivalent, under the set comparator, to the probe entry built from
`(some k, null)`. -/
theorem ssEquiv_of_selectedS_match {x : SelectedStripable} {k : Nat}
    (h1 : weak_ptr_is_not_null x.controllable = false)
    (h2 : x.stripable.lock = some k) :
    ssEquiv x (mkSelectedStripable (some k) none 0) = true := by
  rw [ssEquiv_iff, mk_stripable_lock, mk_controllable_lock]
  exact ⟨h2, lock_eq_none_of_not_not_null h1⟩

/-- Unfolding `selected (stripable)` at a non-null argument. -/
theorem selectedS_some (cs : CoreSelection) (k : Nat) :
    cs.selectedS (some k) =
      cs.stripables.any (fun x =>
        !(weak_ptr_is_not_null x.controllable) &&
          (some k : Option Nat) == x.stripable.lock) := rfl

theorem any_eq_false_iff {l : List SelectedStripable}
    {p : SelectedStripable → Bool} :
    l.any p = false ↔ ∀ x ∈ l, p x = false := by
  simp [List.any_eq_false]

/-- After `remove (s, null)`, the stripable-only query for `s` is false,
provided the entry set satisfied the uniqueness invariant. -/
theorem selectedS_remove_self (cs : CoreSelection) (s : Option Nat)
    (h : uniquePairs cs) :
    (cs.remove s none).1.selectedS s = false := by
  cases s with
  | none => rfl
  | some k =>
    unfold CoreSelection.remove
    by_cases hc :
        containsEquiv cs.stripables
          (mkSelectedStripable (some k) none 0) = true
    · rw [if_pos hc]
      rcases containsEquiv_true_iff.mp hc with ⟨e0, he0, heq0⟩
      rcases List.exists_of_eraseP
          (p := fun e => ssEquiv e (mkSelectedStripable (some k) none 0))
          he0 heq0 with ⟨a, l1, l2, hl1, hpa, hl, herase⟩
      rw [selectedS_some]
      rw [any_eq_false_iff]
      intro x hx
      rw [Bool.eq_false_iff]
      intro hmatch
      simp only [Bool.and_eq_true, Bool.not_eq_true', beq_iff_eq] at hmatch
      obtain ⟨hctrl, hk⟩ := hmatch
      have hxequiv := ssEquiv_of_selectedS_match hctrl hk.symm
      rw [herase] at hx
      rcases List.mem_append.mp hx with hx1 | hx2
      · exact hl1 x hx1 hxequiv
      · unfold uniquePairs at h
        rw [hl] at h
        rcases List.pairwise_append.mp h with ⟨hpl1, hpal2, hcross⟩
        rcases List.pairwise_cons.mp hpal2 with ⟨hal2, hpl2⟩
        refine hal2 x hx2 (ssEquiv_trans hpa ?_)
        rw [ssEquiv_symm]
        exact hxequiv
    · rw [if_neg hc]
      rw [selectedS_some]
      rw [any_eq_false_iff]
      intro x hx
      rw [Bool.eq_false_iff]
      intro hmatch
      simp only [Bool.and_eq_true, Bool.not_eq_true', beq_iff_eq] at hmatch
      obtain ⟨hctrl, hk⟩ := hmatch
      exact hc (containsEquiv_true_iff.mpr
        ⟨x, hx, ssEquiv_of_selectedS_match hctrl hk.symm⟩)

/-- The concrete state refuting claim C1: a single entry whose stripable is
live (object 1) and whose controllable weak reference is expired (the
controllable object has been destroyed, so its weak pointer locks to null
but `weak_ptr_is_not_null` still reports true). -/
def c1State : CoreSelection := ⟨[⟨.live 1, .dead 0, 0⟩], 1⟩

/-- The concrete adapter state refuting claim C2: a fresh adapter (with one
tracked processor) after `add` of view 0 showing stripable 1. -/
def c2State : RouteProcessorSelection :=
  RouteProcessorSelection.add ⟨[], [7], ⟨[], 0⟩⟩ ⟨0, some 1⟩

/-- Claim C1 is false as stated: at `c1State` the claim's reading (an entry
with no *live* controllable counts as a pure stripable-only entry) says
`selected (stripable 1)` is true, but the code's
`weak_ptr_is_not_null` test also skips entries whose controllable weak
reference is merely expired, so `selected` returns false. -/
theorem c1_counterexample :
    specSelectedStripable c1State (some 1) = true ∧
      c1State.selectedS (some 1) = false := by
  decide

/-- Claim C1 (amended): `selected (stripable)` is true iff the argument is
non-null and some entry's controllable weak reference is strictly null
(never set — an expired controllable disqualifies the entry) while the
entry's locked stripable matches the argument by identity. -/
theorem c1_selected_stripable (cs : CoreSelection) (s : Option Nat) :
    cs.selectedS s = true ↔
      s.isSome = true ∧
        ∃ x ∈ cs.stripables,
          weak_ptr_is_not_null x.controllable = false ∧
            s = x.stripable.lock := by
  cases s with
  | none =>
    simp [CoreSelection.selectedS]
  | some k =>
    rw [selectedS_some]
    simp only [List.any_eq_true, Bool.and_eq_true, Bool.not_eq_true',
      beq_iff_eq, Option.isSome_some, true_and]

/-- Claim C2 is false as stated: after `clear()` the underlying
`CoreSelection` stripable set is empty, yet the adapter's local
`selected (view)` query still returns true for the added view, because
`clear()` never empties the local `axes` set. -/
theorem c2_counterexample :
    c2State.clear.core.stripables = [] ∧
      c2State.clear.selected ⟨0, some 1⟩ = true := by
  decide

/-- Claim C2 (amended): `clear()` empties the processor selection and the
underlying `CoreSelection` stripable set, but it leaves the adapter's
local `axes` view set unchanged, so the local `selected (view)` query is
unaffected by `clear()`. -/
theorem c2_clear (rps : RouteProcessorSelection) (v : AxisView) :
    rps.clear.core.stripables = [] ∧
      rps.clear.processors = [] ∧
      rps.clear.axes = rps.axes ∧
      rps.clear.selected v = rps.selected v := by
  unfold RouteProcessorSelection.clear RouteProcessorSelection.clear_routes
    RouteProcessorSelection.clear_processors RouteProcessorSelection.selected
    CoreSelection.clear_stripables
  by_cases hc : rps.core.stripables.isEmpty = true
  · rw [if_pos hc]
    exact ⟨List.isEmpty_iff.mp hc, rfl, rfl, rfl⟩
  · rw [if_neg hc]
    exact ⟨rfl, rfl, rfl, rfl⟩

/-- Claim C3: `toggle (s, c)` performs `remove` exactly when `c` is
non-null and `selected (c)` holds, or when the bare stripable-only query
`selected (s)` holds; in every other case it performs `add`.  In
particular, on an empty selection `toggle (S1, null)` selects `S1` and a
second `toggle (S1, null)` deselects it. -/
theorem c3_toggle (cs : CoreSelection) (s c : Option Nat) :
    (((c.isSome = true ∧ cs.selectedC c = true) ∨ cs.selectedS s = true) →
        cs.toggle s c = cs.remove s c) ∧
      ((¬ (c.isSome = true ∧ cs.selectedC c = true) ∧
          cs.selectedS s = false) →
        cs.toggle s c = cs.add s c) ∧
      ((CoreSelection.mk [] 0).toggle (some 1) none).1.selectedS (some 1)
          = true ∧
      (((CoreSelection.mk [] 0).toggle (some 1) none).1.toggle
          (some 1) none).1.selectedS (some 1) = false := by
  refine ⟨?_, ?_, by decide, by decide⟩
  · intro hcond
    have hb : ((c.isSome && cs.selectedC c) || cs.selectedS s) = true := by
      rcases hcond with ⟨h1, h2⟩ | h3
      · simp [h1, h2]
      · simp [h3]
    unfold CoreSelection.toggle
    rw [if_pos hb]
  · intro hcond
    obtain ⟨h1, h2⟩ := hcond
    have h1' : (c.isSome && cs.selectedC c) = false := by
      rw [Bool.eq_false_iff]
      intro hh
      exact h1 (by simpa using hh)
    have hb : ((c.isSome && cs.selectedC c) || cs.selectedS s) = false := by
      rw [h1', h2]
      rfl
    unfold CoreSelection.toggle
    rw [if_neg (by rw [hb]; exact Bool.false_ne_true)]

/-- Claim C3 witness: both branches exercised at concrete inputs — on a
state where stripable 1 is selected `toggle` removes, and on the empty
state `toggle` adds. -/
theorem c3_toggle_witness :
    ((CoreSelection.mk [⟨.live 1, .null, 0⟩] 1).toggle (some 1) none =
        (CoreSelection.mk [⟨.live 1, .null, 0⟩] 1).remove (some 1) none) ∧
      ((CoreSelection.mk [] 0).toggle (some 1) none =
        (CoreSelection.mk [] 0).add (some 1) none) :=
  ⟨(c3_toggle (CoreSelection.mk [⟨.live 1, .null, 0⟩] 1) (some 1) none).1
      (Or.inr (by decide)),
    (c3_toggle (CoreSelection.mk [] 0) (some 1) none).2.1
      ⟨by decide, by decide⟩⟩

/-- Claim C4: when the selection consists of exactly one entry equivalent
to `(s, c)`, `set (s, c)` leaves the entry set unchanged (the existing
entry, its order value included, survives untouched) and sends no change
notification. -/
theorem c4_set_noop (cs : CoreSelection) (s c : Option Nat)
    (e : SelectedStripable) (h1 : cs.stripables = [e])
    (h2 : ssEquiv e (mkSelectedStripable s c cs.selection_order) = true) :
    (cs.set s c).1.stripables = cs.stripables ∧ (cs.set s c).2 = false := by
  have hcond : (cs.stripables.length == 1 &&
      containsEquiv cs.stripables
        (mkSelectedStripable s c cs.selection_order)) = true := by
    rw [h1]
    simp [containsEquiv, h2]
  unfold CoreSelection.set
  rw [if_pos hcond]
  exact ⟨rfl, rfl⟩

/-- Claim C4 witness: the one-entry state holding stripable 1, on which
`set (1, null)` is a no-op with no notification. -/
theorem c4_set_noop_witness :
    ((CoreSelection.mk [⟨.live 1, .null, 0⟩] 1).set (some 1) none).1.stripables
        = (CoreSelection.mk [⟨.live 1, .null, 0⟩] 1).stripables ∧
      ((CoreSelection.mk [⟨.live 1, .null, 0⟩] 1).set (some 1) none).2
        = false :=
  c4_set_noop (CoreSelection.mk [⟨.live 1, .null, 0⟩] 1) (some 1) none
    ⟨.live 1, .null, 0⟩ rfl (by decide)

theorem ssEquiv_mk_mk (s c : Option Nat) (o o' : Nat) :
    ssEquiv (mkSelectedStripable s c o) (mkSelectedStripable s c o')
      = true := by
  rw [ssEquiv_iff]
  simp [mk_stripable_lock, mk_controllable_lock]

theorem containsEquiv_mk_order (l : List SelectedStripable)
    (s c : Option Nat) (o o' : Nat) :
    containsEquiv l (mkSelectedStripable s c o) =
      containsEquiv l (mkSelectedStripable s c o') := by
  rw [Bool.eq_iff_iff, containsEquiv_true_iff, containsEquiv_true_iff]
  constructor
  · rintro ⟨e, he, heq⟩
    refine ⟨e, he, ?_⟩
    rw [ssEquiv_mk_order e s c o' o]
    exact heq
  · rintro ⟨e, he, heq⟩
    refine ⟨e, he, ?_⟩
    rw [ssEquiv_mk_order e s c o o']
    exact heq

/-- Claim C5: `add (s, c)` inserts a new entry with a freshly allocated
order value exactly when no equivalent entry exists; otherwise it leaves
the entry set unchanged with no notification.  Hence a second `add (s, c)`
right after a first changes nothing and sends nothing (so the pair of
calls sends exactly the one notification of the first, effective call). -/
theorem c5_add_idempotent (cs : CoreSelection) (s c : Option Nat) :
    ((cs.add s c).1.add s c).1.stripables = (cs.add s c).1.stripables ∧
      ((cs.add s c).1.add s c).2 = false ∧
      (containsEquiv cs.stripables
          (mkSelectedStripable s c cs.selection_order) = false →
        (cs.add s c).1.stripables =
            mkSelectedStripable s c cs.selection_order :: cs.stripables ∧
          (cs.add s c).2 = true) ∧
      (containsEquiv cs.stripables
          (mkSelectedStripable s c cs.selection_order) = true →
        (cs.add s c).1.stripables = cs.stripables ∧
          (cs.add s c).2 = false) := by
  by_cases hc : containsEquiv cs.stripables
      (mkSelectedStripable s c cs.selection_order) = true
  · have h1 : cs.add s c =
        ({ cs with selection_order := cs.selection_order + 1 }, false) := by
      unfold CoreSelection.add
      rw [if_pos hc]
    have hc2 : containsEquiv cs.stripables
        (mkSelectedStripable s c (cs.selection_order + 1)) = true := by
      rw [containsEquiv_mk_order cs.stripables s c _ cs.selection_order]
      exact hc
    have h2 : ({ cs with selection_order := cs.selection_order + 1 } :
        CoreSelection).add s c =
        ({ cs with selection_order := cs.selection_order + 1 + 1 }, false) := by
      unfold CoreSelection.add
      rw [if_pos hc2]
    rw [h1, h2]
    exact ⟨rfl, rfl, fun hf => absurd hc (by rw [hf]; exact Bool.false_ne_true),
      fun _ => ⟨rfl, rfl⟩⟩
  · have hcf : containsEquiv cs.stripables
        (mkSelectedStripable s c cs.selection_order) = false :=
      Bool.eq_false_iff.mpr hc
    have h1 : cs.add s c =
        ({ stripables :=
             mkSelectedStripable s c cs.selection_order :: cs.stripables,
           selection_order := cs.selection_order + 1 }, true) := by
      unfold CoreSelection.add
      rw [if_neg hc]
    have hc2 : containsEquiv
        (mkSelectedStripable s c cs.selection_order :: cs.stripables)
        (mkSelectedStripable s c (cs.selection_order + 1)) = true := by
      rw [containsEquiv_true_iff]
      exact ⟨mkSelectedStripable s c cs.selection_order,
        List.mem_cons_self _ _, ssEquiv_mk_mk s c _ _⟩
    have h2 : (CoreSelection.mk
          (mkSelectedStripable s c cs.selection_order :: cs.stripables)
          (cs.selection_order + 1)).add s c =
        (CoreSelection.mk
          (mkSelectedStripable s c cs.selection_order :: cs.stripables)
          (cs.selection_order + 1 + 1), false) := by
      unfold CoreSelection.add
      rw [if_pos hc2]
    rw [h1, h2]
    exact ⟨rfl, rfl, fun _ => ⟨rfl, rfl⟩,
      fun ht => absurd ht (by rw [hcf]; exact Bool.false_ne_true)⟩

/-- Claim C5 witness: on the empty state, the first `add (1, null)` inserts
and notifies; the second changes nothing and sends nothing. -/
theorem c5_add_idempotent_witness :
    (((CoreSelection.mk [] 0).add (some 1) none).1.add (some 1) none).1.stripables
        = ((CoreSelection.mk [] 0).add (some 1) none).1.stripables ∧
      ((((CoreSelection.mk [] 0).add (some 1) none).1.add (some 1) none).2
        = false) ∧
      (((CoreSelection.mk [] 0).add (some 1) none).1.stripables =
          [mkSelectedStripable (some 1) none 0] ∧
        ((CoreSelection.mk [] 0).add (some 1) none).2 = true) :=
  ⟨(c5_add_idempotent (CoreSelection.mk [] 0) (some 1) none).1,
    (c5_add_idempotent (CoreSelection.mk [] 0) (some 1) none).2.1,
    (c5_add_idempotent (CoreSelection.mk [] 0) (some 1) none).2.2.1
      (by decide)⟩

/-- Claim C6: when the current selection is not already exactly one entry
equivalent to `(s, c)`, `set (s, c)` replaces all entries with the single
new entry carrying a freshly allocated order value, and notifies.  In
particular `set (S1, null)` then `set (S2, null)` from the empty state
makes `get_stripables` return exactly `[S2]`. -/
theorem c6_set_replaces (cs : CoreSelection) (s c : Option Nat)
    (h : ∀ e : SelectedStripable, cs.stripables = [e] →
      ssEquiv e (mkSelectedStripable s c cs.selection_order) = false) :
    ((cs.set s c).1.stripables =
        [mkSelectedStripable s c cs.selection_order] ∧
      (cs.set s c).2 = true) ∧
      (((CoreSelection.mk [] 0).set (some 1) none).1.set
          (some 2) none).1.get_stripables = [⟨some 2, none, 1⟩] := by
  refine ⟨?_, by decide⟩
  have hcond : (cs.stripables.length == 1 &&
      containsEquiv cs.stripables
        (mkSelectedStripable s c cs.selection_order)) = false := by
    cases hl : cs.stripables with
    | nil => rfl
    | cons e t =>
      cases t with
      | nil =>
        have he := h e hl
        simp [containsEquiv, he]
      | cons e2 t2 =>
        rw [Bool.and_eq_false_iff]
        left
        rw [beq_eq_false_iff_ne]
        simp
  unfold CoreSelection.set
  rw [if_neg (by rw [hcond]; exact Bool.false_ne_true)]
  exact ⟨rfl, rfl⟩

/-- Claim C6 witness: from the empty state, `set (1, null)` installs the
single entry for stripable 1 with order value 0 and notifies. -/
theorem c6_set_replaces_witness :
    ((CoreSelection.mk [] 0).set (some 1) none).1.stripables =
        [mkSelectedStripable (some 1) none 0] ∧
      ((CoreSelection.mk [] 0).set (some 1) none).2 = true :=
  (c6_set_replaces (CoreSelection.mk [] 0) (some 1) none
    (fun _ he => List.noConfusion he)).1

/-- Claim C7: `get_stripables` returns exactly the entries with at least
one live reference (never one whose stripable and controllable are both
expired), sorted strictly ascending by `order` — stated for entry sets
whose order values are pairwise distinct, which the atomic counter
guarantees for every entry the operations allocate. -/
theorem c7_get_stripables (cs : CoreSelection)
    (h : (cs.stripables.map SelectedStripable.order).Nodup) :
    cs.get_stripables.Pairwise (fun a b => a.order < b.order) ∧
      (∀ p, p ∈ cs.get_stripables ↔
        ∃ x ∈ cs.stripables, entryLive x = true ∧ p = liveView x) ∧
      ∀ p ∈ cs.get_stripables,
        p.stripable.isSome = true ∨ p.controllable.isSome = true := by
  have hperm : List.Perm cs.get_stripables
      ((cs.stripables.filter entryLive).map liveView) :=
    perm_sortByOrder _
  have hmem : ∀ p, p ∈ cs.get_stripables ↔
      ∃ x ∈ cs.stripables, entryLive x = true ∧ p = liveView x := by
    intro p
    rw [hperm.mem_iff]
    simp only [List.mem_map, List.mem_filter]
    constructor
    · rintro ⟨x, ⟨hx, hlive⟩, rfl⟩
      exact ⟨x, hx, hlive, rfl⟩
    · rintro ⟨x, hx, hlive, rfl⟩
      exact ⟨x, ⟨hx, hlive⟩, rfl⟩
  refine ⟨?_, hmem, ?_⟩
  · have hle : cs.get_stripables.Pairwise (fun a b => a.order ≤ b.order) :=
      pairwise_le_sortByOrder _
    have hsub2 : List.Sublist
        ((cs.stripables.filter entryLive).map SelectedStripable.order)
        (cs.stripables.map SelectedStripable.order) :=
      (List.filter_sublist _).map _
    have hnd0 : ((cs.stripables.filter entryLive).map
        SelectedStripable.order).Nodup := h.sublist hsub2
    have hmapeq : ((cs.stripables.filter entryLive).map liveView).map
        (fun p => p.order) =
        (cs.stripables.filter entryLive).map SelectedStripable.order := by
      rw [List.map_map]
      rfl
    have hnd1 : (((cs.stripables.filter entryLive).map liveView).map
        (fun p => p.order)).Nodup := by
      rw [hmapeq]
      exact hnd0
    have hnd2 : (cs.get_stripables.map (fun p => p.order)).Nodup :=
      (hperm.map (fun p => p.order)).nodup_iff.mpr hnd1
    have hne : cs.get_stripables.Pairwise
        (fun a b => a.order ≠ b.order) :=
      List.pairwise_map.mp hnd2
    exact (hle.and hne).imp (fun hab => Nat.lt_of_le_of_ne hab.1 hab.2)
  · intro p hp
    rcases (hmem p).mp hp with ⟨x, _, hlive, rfl⟩
    unfold entryLive at hlive
    simp only [Bool.or_eq_true] at hlive
    rcases hlive with h1 | h2
    · exact Or.inl h1
    · exact Or.inr h2

/-- Claim C7 witness: a state with a live stripable-only entry, an entry
whose stripable and controllable are both gone (dropped from the
snapshot), and a live controllable entry, inserted in reverse order. -/
theorem c7_get_stripables_witness :
    ((CoreSelection.mk [⟨.live 3, .live 4, 2⟩, ⟨.dead 2, .null, 1⟩,
        ⟨.live 1, .null, 0⟩] 3).stripables.map
          SelectedStripable.order).Nodup ∧
      (CoreSelection.mk [⟨.live 3, .live 4, 2⟩, ⟨.dead 2, .null, 1⟩,
        ⟨.live 1, .null, 0⟩] 3).get_stripables.Pairwise
          (fun a b => a.order < b.order) :=
  ⟨by decide,
    (c7_get_stripables (CoreSelection.mk [⟨.live 3, .live 4, 2⟩,
      ⟨.dead 2, .null, 1⟩, ⟨.live 1, .null, 0⟩] 3) (by decide)).1⟩

/-- Claim C8: every sequence of toggle/add/remove/set/clear operations
preserves the invariant of at most one entry per distinct
(stripable-identity, controllable-identity) pair, identities compared via
the locked references with expired or never-set weak references both
counting as null. -/
theorem c8_ops_preserve_unique (ops : List SelOp) (cs : CoreSelection)
    (h : uniquePairs cs) : uniquePairs (runSelOps ops cs) := by
  induction ops generalizing cs with
  | nil => exact h
  | cons op rest ih =>
    exact ih (applySelOp op cs) (uniquePairs_applySelOp op cs h)

/-- Claim C8 witness: replaying a sample sequence of all five operation
kinds from the empty state keeps the uniqueness invariant. -/
theorem c8_ops_preserve_unique_witness :
    uniquePairs (CoreSelection.mk [] 0) ∧
      uniquePairs (runSelOps
        [SelOp.opAdd (some 1) none, SelOp.opAdd (some 1) (some 2),
         SelOp.opToggle (some 1) none, SelOp.opSet (some 3) none,
         SelOp.opRemove (some 3) none, SelOp.opClear]
        (CoreSelection.mk [] 0)) :=
  ⟨List.Pairwise.nil, c8_ops_preserve_unique _ _ List.Pairwise.nil⟩

/-- Claim C9: the embedded operations are total functions; null stripable
and null controllable arguments are ordinary absent values on which `add`
and `remove` follow their usual semantics (a control-only selection with a
null stripable works), and both `selected` overloads return false on a
null reference. -/
theorem c9_null_inputs_total (cs : CoreSelection) (c : Option Nat) :
    cs.selectedS none = false ∧
      cs.selectedC none = false ∧
      ((cs.add none c).1.stripables = cs.stripables ∨
        (cs.add none c).1.stripables =
          mkSelectedStripable none c cs.selection_order :: cs.stripables) ∧
      List.Sublist (cs.remove none c).1.stripables cs.stripables ∧
      ((CoreSelection.mk [] 0).add none (some 5)).1.selectedC (some 5)
        = true := by
  refine ⟨rfl, rfl, ?_, ?_, by decide⟩
  · unfold CoreSelection.add
    by_cases hc : containsEquiv cs.stripables
        (mkSelectedStripable none c cs.selection_order) = true
    · rw [if_pos hc]
      exact Or.inl rfl
    · rw [if_neg hc]
      exact Or.inr rfl
  · unfold CoreSelection.remove
    by_cases hc : containsEquiv cs.stripables
        (mkSelectedStripable none c 0) = true
    · rw [if_pos hc]
      exact List.eraseP_sublist _
    · rw [if_neg hc]

/-- Claim C10: the adapter's `remove (view)` only forwards the removal to
`CoreSelection` and leaves the local `axes` set unchanged, so after
`add (v)` followed by `remove (v)` the adapter still reports `v` selected
even though `CoreSelection` no longer reports `v`'s stripable selected. -/
theorem c10_remove_keeps_axes (rps : RouteProcessorSelection) (v : AxisView)
    (h : uniquePairs rps.core) :
    ((rps.add v).remove v).selected v = true ∧
      ((rps.add v).remove v).axes = (rps.add v).axes ∧
      ((rps.add v).remove v).core.selectedS v.strip = false := by
  have hax : v ∈ (rps.add v).axes := by
    unfold RouteProcessorSelection.add
    by_cases hv : v ∈ rps.axes
    · rw [if_pos hv]
      exact hv
    · rw [if_neg hv]
      exact List.mem_cons_self _ _
  have hcore : uniquePairs (rps.add v).core := by
    unfold RouteProcessorSelection.add
    by_cases hv : v ∈ rps.axes
    · rw [if_pos hv]
      exact h
    · rw [if_neg hv]
      exact uniquePairs_add rps.core v.strip none h
  refine ⟨?_, rfl, ?_⟩
  · unfold RouteProcessorSelection.remove RouteProcessorSelection.selected
    exact List.elem_iff.mpr hax
  · exact selectedS_remove_self (rps.add v).core v.strip hcore

/-- Claim C10 witness: from the empty adapter, adding then removing view 0
(showing stripable 1) leaves the view locally selected while the core no
longer reports stripable 1 selected. -/
theorem c10_remove_keeps_axes_witness :
    uniquePairs (RouteProcessorSelection.mk [] []
        (CoreSelection.mk [] 0)).core ∧
      (((RouteProcessorSelection.mk [] [] (CoreSelection.mk [] 0)).add
          ⟨0, some 1⟩).remove ⟨0, some 1⟩).selected ⟨0, some 1⟩ = true ∧
      (((RouteProcessorSelection.mk [] [] (CoreSelection.mk [] 0)).add
          ⟨0, some 1⟩).remove ⟨0, some 1⟩).core.selectedS (some 1)
        = false :=
  ⟨List.Pairwise.nil,
    (c10_remove_keeps_axes (RouteProcessorSelection.mk [] []
      (CoreSelection.mk [] 0)) ⟨0, some 1⟩ List.Pairwise.nil).1,
    (c10_remove_keeps_axes (RouteProcessorSelection.mk [] []
      (CoreSelection.mk [] 0)) ⟨0, some 1⟩ List.Pairwise.nil).2.2⟩
